import Mathlib

/-!
# News articles: the Lua binding of the article list (nlua_news.c)

A shallow embedding of `src/nlua_news.c`.

* The linked list `news_list` (records chained by `next`) is a `List news_t`;
  the pointer `article_ptr` is the suffix starting at the pointed record and
  `NULL` is the empty list. The list is owned by news.c, which is not among
  the sources; the loop of `newsL_get` reads the first record before any
  test of the pointer and skips records without texts, which no call of
  `newsL_addArticle` creates, so the statements are made on lists that hold at
  least one record, and the store without articles is a list whose records
  have no texts.
* A Lua string is a `String` that may hold NUL bytes. The `char*` that
  `lua_tostring` hands over, `strdup`, `strcmp` and `lua_pushstring` all read
  a text up to its first NUL byte: that reading is `cstr`. A `char*` field
  that may be `NULL` is an `Option String`.
* A Lua number is represented by the integer the cast `(ntime_t)` takes it
  to. The way back, `lua_pushinteger` of a date cast to `lua_Integer`, wraps
  to 64 bits and rounds to the nearest double (`lua_pushinteger`).
* The two coercions of the Lua library between strings and numbers
  (`lua_isnumber`/`lua_tonumber` on a string, `lua_tostring` on a number) are
  not part of this repository; every function takes them as the parameter
  `cv : LuaConv`.
-/

namespace NluaNews

/-- Ways a binding function ends without pushing its result. -/
inductive Fault
  /-- The warning "Bad arguments, ..." followed by `return 0`. -/
  | badArguments
  /-- The warning "Article not valid" followed by `return 0`. -/
  | notValid
  /-- The condition InvalidArgument with which the store refuses to create an
  article. -/
  | invalidArgument
  /-- A Lua error raised by `luaL_typerror`. -/
  | typeError
  /-- A member access through a `NULL` or uninitialised pointer
  (undefined behaviour). -/
  | invalidDeref
  deriving DecidableEq, Repr

/-- The record `news_t` of the article list, without its `next` pointer. -/
structure news_t where
  id : Int
  title : Option String
  desc : Option String
  faction : Option String
  date : Int
  deriving DecidableEq, Repr

/-- The userdata `Lua_article`: a handle that carries an article id. -/
structure Lua_article where
  id : Int
  deriving DecidableEq, Repr

/-- A Lua value as the binding functions inspect it on the stack. -/
inductive LuaValue
  | nil
  | boolean (b : Bool)
  | number (n : Int)
  | string (s : String)
  /-- Userdata whose metatable is `ARTICLE_METATABLE`. -/
  | article (a : Lua_article)
  /-- Any other value (table, function, foreign userdata, ...). -/
  | other
  deriving DecidableEq, Repr

/-- The string/number coercions of the Lua library. -/
structure LuaConv where
  /-- The number a string converts to, when `lua_isnumber` accepts it. -/
  str2number : String → Option Int
  /-- The string `lua_tostring` yields for a number. -/
  number2str : Int → String

/-- Value of a run of decimal digits read after the accumulator `acc`. -/
def decimalDigits : List Char → Nat → Option Nat
  | [], acc => some acc
  | c :: cs, acc =>
    if c.isDigit then decimalDigits cs (10 * acc + (c.toNat - 48)) else none

/-- Reads a plain decimal numeral with an optional leading minus sign. -/
def decimalNumeral (s : String) : Option Int :=
  match s.toList with
  | [] => none
  | '-' :: c :: cs => (decimalDigits (c :: cs) 0).map (fun n => - (n : Int))
  | c :: cs => if c = '-' then none else (decimalDigits (c :: cs) 0).map (fun n => (n : Int))

/-- The coercions restricted to plain decimal numerals, on which the Lua
library agrees with them; used to evaluate the functions on concrete input. -/
def decimalConv : LuaConv where
  str2number := decimalNumeral
  number2str := fun n => toString n

/-- The text a `char*` denotes: the characters before the first NUL byte. -/
def cstr (s : String) : String :=
  String.mk (s.toList.takeWhile (fun c => c != Char.ofNat 0))

/-- The text holds no NUL byte. -/
def noNul (s : String) : Bool :=
  s.toList.all (fun c => c != Char.ofNat 0)

/-- The test `!strcmp(a, b)`: the two C strings are equal. -/
def strcmp_zero (a b : String) : Bool :=
  cstr a == cstr b

/-- The cast to `lua_Integer` (`ptrdiff_t`, 64 bits): wrap-around. -/
def lua_Integer_cast (n : Int) : Int :=
  (n + 2 ^ 63) % 2 ^ 64 - 2 ^ 63

/-- The `lua_Number` (IEEE double) an integer converts to: the integer itself
below 2^53 in magnitude, and above that the nearest multiple of the spacing of
doubles, ties going to the even mantissa. -/
def lua_Number_of_integer (n : Int) : Int :=
  let m := n.natAbs
  if m < 2 ^ 53 then n
  else
    let e := Nat.log2 m - 52
    let q := m / 2 ^ e
    let r := m % 2 ^ e
    let q1 := if 2 ^ e < 2 * r ∨ (2 * r = 2 ^ e ∧ q % 2 = 1) then q + 1 else q
    Int.sign n * ((q1 * 2 ^ e : Nat) : Int)

/-- The check `lua_isnumber`: numbers, and strings that convert to one. -/
def lua_isnumber (cv : LuaConv) : LuaValue → Bool
  | .number _ => true
  | .string s => (cv.str2number s).isSome
  | _ => false

/-- The conversion `lua_tonumber` followed by the cast to `ntime_t`; a value
that does not convert gives 0. -/
def lua_tonumber (cv : LuaConv) : LuaValue → Int
  | .number n => n
  | .string s => (cv.str2number s).getD 0
  | _ => 0

/-- The check `lua_isstring`: strings and numbers. -/
def lua_isstring : LuaValue → Bool
  | .string _ => true
  | .number _ => true
  | _ => false

/-- The conversion `lua_tostring`, read as the C string its `char*` denotes;
`none` is the `NULL` it returns for a value that is neither a string nor a
number. -/
def lua_tostring (cv : LuaConv) : LuaValue → Option String
  | .string s => some (cstr s)
  | .number n => some (cstr (cv.number2str n))
  | _ => none

/-- The check `lua_isboolean`. -/
def lua_isboolean : LuaValue → Bool
  | .boolean _ => true
  | _ => false

/-- The value `lua_pushstring` pushes: the C string behind the pointer, and
`nil` for a `NULL` pointer. -/
def lua_pushstring : Option String → LuaValue
  | some s => .string (cstr s)
  | none => .nil

/-- The value `lua_pushinteger(L, (lua_Integer) date)` pushes. -/
def lua_pushinteger (date : Int) : LuaValue :=
  .number (lua_Number_of_integer (lua_Integer_cast date))

/-- The table built by `newsL_get`: its entries in the order they were set. -/
abbrev LuaTable := List (Nat × Lua_article)

/-- The assignment `table[key] = value` of `lua_rawset`. -/
def lua_rawset (t : LuaTable) (key : Nat) (value : Lua_article) : LuaTable :=
  t.filter (fun e => e.1 != key) ++ [(key, value)]

/-- The locals of `newsL_get` that hold the filter. -/
structure GetFilter where
  date : Int
  characteristic : Option String
  print_all : Bool
  deriving DecidableEq, Repr

/-- Lines 158-170 of `newsL_get`: the filter read from the first argument. -/
def newsL_get_filter (cv : LuaConv) (arg : LuaValue) : GetFilter :=
  if lua_isnumber cv arg then
    { date := lua_tonumber cv arg, characteristic := none, print_all := false }
  else if lua_isstring arg then
    { date := -1, characteristic := lua_tostring cv arg, print_all := false }
  else if lua_isboolean arg then
    { date := -1, characteristic := none, print_all := true }
  else
    { date := -1, characteristic := none, print_all := false }

/-- The condition of lines 181-182, on a record whose three texts are set. -/
def newsL_get_test (f : GetFilter) (title desc faction : String) (date : Int) : Bool :=
  f.print_all || f.date == date ||
    (match f.characteristic with
     | none => false
     | some c => strcmp_zero title c || strcmp_zero desc c || strcmp_zero faction c)

/-- One pass through the body of the loop (lines 177-188) at the record `a`,
with the counter `k` and the table under construction. -/
def newsL_get_body (f : GetFilter) (a : news_t) (k : Nat) (t : LuaTable) : Nat × LuaTable :=
  match a.title, a.desc, a.faction with
  | some title, some desc, some faction =>
    if newsL_get_test f title desc faction a.date then
      (k + 1, lua_rawset t k { id := a.id })
    else
      (k, t)
  | _, _, _ => (k, t)

/-- The loop `do ... while ((article_ptr = article_ptr->next) != NULL)` entered
at the record `a` whose successors are `rest`. -/
def newsL_get_loop (f : GetFilter) : news_t → List news_t → Nat → LuaTable → Nat × LuaTable
  | a, [], k, t => newsL_get_body f a k t
  | a, b :: rest, k, t =>
    newsL_get_loop f b rest (newsL_get_body f a k t).1 (newsL_get_body f a k t).2

/-- The binding `newsL_get` (`news.get`): the table of the matching articles.
The loop body runs before the first test of the pointer, so it reads
`article_ptr->title` through `news_list` itself. -/
def newsL_get (cv : LuaConv) (news_list : List news_t) (arg : LuaValue) :
    Except Fault LuaTable :=
  match news_list with
  | [] => .error .invalidDeref
  | a :: rest => .ok (newsL_get_loop (newsL_get_filter cv arg) a rest 1 []).2

/-- The article list together with the id counter of the store. -/
structure news_state where
  news_list : List news_t
  next_id : Int
  deriving DecidableEq, Repr

/-- Modelled from the spec: `new_article` of news.c (the operation create),
which is not among the sources. It fails with InvalidArgument, creating no
article, when one of title, desc and faction is empty or the timestamp cannot
be represented as an `ntime_t` (64 bits); otherwise it copies the texts,
assigns the next unused identifier, appends the record to the collection
preserving insertion order, and returns the record. -/
def new_article (st : news_state) (title content faction : String) (date : Int) :
    Except Fault news_t × news_state :=
  if cstr title = "" ∨ cstr content = "" ∨ cstr faction = "" ∨
      date < -(2 ^ 63) ∨ 2 ^ 63 ≤ date then
    (.error .invalidArgument, st)
  else
    let n : news_t :=
      { id := st.next_id, title := some (cstr title), desc := some (cstr content),
        faction := some (cstr faction), date := date }
    (.ok n, { news_list := st.news_list ++ [n], next_id := st.next_id + 1 })

/-- Modelled from the spec: `news_get` of news.c, which is not among the
sources. It resolves an identifier to the record that currently carries it,
and finds nothing (`NULL`) when the id is stale or unknown. -/
def news_get (st : news_state) (id : Int) : Option news_t :=
  st.news_list.find? (fun a => a.id == id)

/-- The binding `newsL_addArticle` (`news.add`) on the four stack slots. A
failure of `new_article` ends the binding with that failure: the source has
no path that goes on without the new record. -/
def newsL_addArticle (cv : LuaConv) (st : news_state) (a1 a2 a3 a4 : LuaValue) :
    Except Fault Lua_article × news_state :=
  if lua_isstring a1 && lua_isstring a2 && lua_isstring a3 && lua_isnumber cv a4 then
    let faction := lua_tostring cv a1
    let title := lua_tostring cv a2
    let content := lua_tostring cv a3
    let date := lua_tonumber cv a4
    match title, content, faction with
    | some title, some content, some faction =>
      match new_article st title content faction date with
      | (.ok n_article, st1) => (.ok { id := n_article.id }, st1)
      | (.error e, st1) => (.error e, st1)
    | _, _, _ => (.error .invalidDeref, st)
  else
    (.error .badArguments, st)

/-- The check `luaL_validarticle`: the userdata, or a raised type error. -/
def luaL_validarticle : LuaValue → Except Fault Lua_article
  | .article a => .ok a
  | _ => .error .typeError

/-- The accessor `newsL_title` (`news.title`). -/
def newsL_title (st : news_state) (arg : LuaValue) : Except Fault LuaValue :=
  match luaL_validarticle arg with
  | .error e => .error e
  | .ok a =>
    match news_get st a.id with
    | none => .error .notValid
    | some article_ptr => .ok (lua_pushstring article_ptr.title)

/-- The accessor `newsL_desc` (`news.desc`). -/
def newsL_desc (st : news_state) (arg : LuaValue) : Except Fault LuaValue :=
  match luaL_validarticle arg with
  | .error e => .error e
  | .ok a =>
    match news_get st a.id with
    | none => .error .notValid
    | some article_ptr => .ok (lua_pushstring article_ptr.desc)

/-- The accessor `newsL_faction` (`news.faction`). -/
def newsL_faction (st : news_state) (arg : LuaValue) : Except Fault LuaValue :=
  match luaL_validarticle arg with
  | .error e => .error e
  | .ok a =>
    match news_get st a.id with
    | none => .error .notValid
    | some article_ptr => .ok (lua_pushstring article_ptr.faction)

/-- The accessor `newsL_date` (`news.date`). -/
def newsL_date (st : news_state) (arg : LuaValue) : Except Fault LuaValue :=
  match luaL_validarticle arg with
  | .error e => .error e
  | .ok a =>
    match news_get st a.id with
    | none => .error .notValid
    | some article_ptr => .ok (lua_pushinteger article_ptr.date)

/-- An article is complete when title, desc and faction are all set. -/
def complete (a : news_t) : Bool :=
  a.title.isSome && a.desc.isSome && a.faction.isSome

/-- The handle that carries the id of a record. -/
def handle (a : news_t) : Lua_article := { id := a.id }

/-- The sequence a Lua table holds: the values at the keys 1, 2, ... up to the
first key that is not set. -/
def sequenceFrom (t : LuaTable) : Nat → Nat → List Lua_article
  | _, 0 => []
  | k, fuel + 1 =>
    match t.find? (fun e => e.1 == k) with
    | none => []
    | some e => e.2 :: sequenceFrom t (k + 1) fuel

/-- The sequence of a table, read from key 1. -/
def sequence (t : LuaTable) : List Lua_article := sequenceFrom t 1 t.length

deriving instance DecidableEq for Except

/-- The record passes the completeness guard and the condition of the loop
body under the filter `f`. -/
def satisfies (f : GetFilter) (a : news_t) : Bool :=
  match a.title, a.desc, a.faction with
  | some title, some desc, some faction => newsL_get_test f title desc faction a.date
  | _, _, _ => false

/-- The handles of the records of `l` that satisfy `f`, in the order of `l`. -/
def selected (f : GetFilter) (l : List news_t) : List Lua_article :=
  (l.filter (satisfies f)).map handle


/-- The field is set and, as a C string, equals the text `p` read up to its
first NUL byte. -/
def sameText (field : Option String) (p : String) : Bool :=
  match field with
  | some s => cstr s == cstr p
  | none => false

/-- The records a text filter `p` is meant to select: a complete record whose
date is the number `p` converts to, or, when `p` converts to none, a complete
record one of whose texts is `p`. -/
def matchesText (cv : LuaConv) (p : String) (a : news_t) : Bool :=
  complete a &&
    (match cv.str2number p with
     | some n => a.date == n
     | none => sameText a.title p || sameText a.desc p || sameText a.faction p)

/-- No complete record of the list is dated -1, the value the date local of
`newsL_get` holds when the filter is not a number. -/
def noneDatedMinusOne (l : List news_t) : Bool :=
  l.all (fun a => !(complete a && a.date == -1))

/-- The records a numeric filter `d` selects. -/
def matchesDate (d : Int) (a : news_t) : Bool :=
  complete a && a.date == d

/-- The filter value is neither a number, nor a text, nor a boolean. -/
def unrecognized (cv : LuaConv) (arg : LuaValue) : Bool :=
  !lua_isnumber cv arg && !lua_isstring arg && !lua_isboolean arg

/-- Every record of the store carries an id below the id counter. -/
def idsBelowCounter (st : news_state) : Bool :=
  st.news_list.all (fun a => a.id < st.next_id)

/-! ## Concrete records and stores -/

/-- The article of `news.add("Empire", "Hello", "Hello world!", 0)`. -/
def helloUndated : news_t :=
  { id := 0, title := some "Hello", desc := some "Hello world!", faction := some "Empire",
    date := 0 }

/-- The article of `news.add("Empire", "Hello", "Hello world!", -1)`. -/
def helloMinusOne : news_t :=
  { id := 1, title := some "Hello", desc := some "Hello world!", faction := some "Empire",
    date := -1 }

/-- The article of `news.add("Empire", "10", "Ten years on", 5)`. -/
def titledTen : news_t :=
  { id := 2, title := some "10", desc := some "Ten years on", faction := some "Empire",
    date := 5 }

/-- A record none of whose texts is set. -/
def blankRecord : news_t :=
  { id := 3, title := none, desc := none, faction := none, date := 5 }

/-- The article of `news.add("Pirate", "Raid", "A convoy was lost", 5)`. -/
def raidArticle : news_t :=
  { id := 4, title := some "Raid", desc := some "A convoy was lost", faction := some "Pirate",
    date := 5 }

/-- A store of three records, the middle one without texts. -/
def sampleState : news_state :=
  { news_list := [titledTen, blankRecord, raidArticle], next_id := 5 }

/-- The store without articles: its one record has no texts. -/
def placeholderState : news_state :=
  { news_list := [blankRecord], next_id := 4 }

/-- The article of `news.add("Empire", "Hello", "Hello world!", -1)` on the
store without articles. -/
def addedMinusOne : news_t :=
  { id := 4, title := some "Hello", desc := some "Hello world!", faction := some "Empire",
    date := -1 }

/-- The Lua string "Hello", a NUL byte, then "x". -/
def helloNulTail : String :=
  ("Hello".push (Char.ofNat 0)).append "x"

/-! ## The loop of `newsL_get` -/

/-- Setting a key above every key of the table appends the entry. -/
theorem lua_rawset_fresh (t : LuaTable) (k : Nat) (v : Lua_article)
    (h : ∀ e ∈ t, e.1 < k) : lua_rawset t k v = t ++ [(k, v)] := by
  unfold lua_rawset
  congr 1
  rw [List.filter_eq_self]
  intro e he
  have := h e he
  simp only [bne_iff_ne, ne_eq]
  omega

/-- The loop body adds the handle of the record exactly when the record
satisfies the filter. -/
theorem newsL_get_body_eq (f : GetFilter) (a : news_t) (k : Nat) (t : LuaTable) :
    newsL_get_body f a k t =
      if satisfies f a then (k + 1, lua_rawset t k (handle a)) else (k, t) := by
  unfold newsL_get_body satisfies handle
  rcases a with ⟨id, title, desc, faction, date⟩
  cases title <;> cases desc <;> cases faction <;> simp

/-- The selection of a list, one record at a time. -/
theorem selected_cons (f : GetFilter) (a : news_t) (l : List news_t) :
    selected f (a :: l) = (if satisfies f a then [handle a] else []) ++ selected f l := by
  unfold selected
  by_cases h : satisfies f a = true <;> simp [List.filter_cons, h]

/-- The selection of a concatenation. -/
theorem selected_append (f : GetFilter) (l₁ l₂ : List news_t) :
    selected f (l₁ ++ l₂) = selected f l₁ ++ selected f l₂ := by
  simp [selected]

/-- The loop body keeps every key of the table below the counter. -/
theorem newsL_get_body_keys (f : GetFilter) (a : news_t) (k : Nat) (t : LuaTable)
    (h : ∀ e ∈ t, e.1 < k) :
    ∀ e ∈ (newsL_get_body f a k t).2, e.1 < (newsL_get_body f a k t).1 := by
  rw [newsL_get_body_eq]
  by_cases hs : satisfies f a = true
  · simp only [hs, if_true]
    rw [lua_rawset_fresh t k _ h]
    intro e he
    rcases List.mem_append.mp he with he | he
    · have := h e he
      omega
    · simp only [List.mem_singleton] at he
      subst he
      simp
  · simp only [hs]
    simpa using h

/-- Loop invariant: entered with every key below `k`, the loop advances `k` by
the number of selected records and appends their handles at the keys
`k`, `k + 1`, ... -/
theorem newsL_get_loop_eq (f : GetFilter) (rest : List news_t) :
    ∀ (a : news_t) (k : Nat) (t : LuaTable), (∀ e ∈ t, e.1 < k) →
      newsL_get_loop f a rest k t =
        (k + (selected f (a :: rest)).length,
          t ++ List.enumFrom k (selected f (a :: rest))) := by
  induction rest with
  | nil =>
    intro a k t h
    rw [newsL_get_loop, newsL_get_body_eq, selected_cons]
    by_cases hs : satisfies f a = true
    · simp [hs, selected, lua_rawset_fresh t k _ h, List.enumFrom]
    · simp [hs, selected]
  | cons b rest ih =>
    intro a k t h
    rw [newsL_get_loop, ih b _ _ (newsL_get_body_keys f a k t h), selected_cons f a,
      newsL_get_body_eq]
    by_cases hs : satisfies f a = true
    · simp only [hs, if_true, lua_rawset_fresh t k _ h, List.singleton_append,
        List.length_cons, List.enumFrom, List.append_assoc]
      refine Prod.ext ?_ ?_
      · simp only; omega
      · simp
    · simp [hs]

/-- On a list with at least one record `newsL_get` returns the table whose
keys 1, 2, ... hold the handles of the selected records, in list order. -/
theorem newsL_get_eq (cv : LuaConv) (news_list : List news_t) (arg : LuaValue)
    (h : news_list ≠ []) :
    newsL_get cv news_list arg =
      .ok (List.enumFrom 1 (selected (newsL_get_filter cv arg) news_list)) := by
  cases news_list with
  | nil => exact absurd rfl h
  | cons a rest =>
    simp only [newsL_get]
    rw [newsL_get_loop_eq _ rest a 1 [] (by simp)]
    simp

/-! ## The filters of `newsL_get` -/

/-- A record that satisfies a filter is complete. -/
theorem satisfies_complete (f : GetFilter) (a : news_t) (h : satisfies f a = true) :
    complete a = true := by
  rcases a with ⟨id, title, desc, faction, date⟩
  cases title <;> cases desc <;> cases faction <;> simp_all [satisfies, complete]

/-- Under a boolean filter every complete record is selected. -/
theorem satisfies_boolean (cv : LuaConv) (b : Bool) (a : news_t) :
    satisfies (newsL_get_filter cv (.boolean b)) a = complete a := by
  rcases a with ⟨id, title, desc, faction, date⟩
  cases title <;> cases desc <;> cases faction <;>
    simp [satisfies, complete, newsL_get_filter, lua_isnumber, lua_isstring, lua_isboolean,
      newsL_get_test]

/-- Under the numeric filter `d` the complete records dated `d` are selected. -/
theorem satisfies_number (cv : LuaConv) (d : Int) (a : news_t) :
    satisfies (newsL_get_filter cv (.number d)) a = matchesDate d a := by
  rcases a with ⟨id, title, desc, faction, date⟩
  cases title <;> cases desc <;> cases faction <;>
    simp [satisfies, matchesDate, complete, newsL_get_filter, lua_isnumber, lua_tonumber,
      newsL_get_test, eq_comm]

/-- Reading a C string twice is reading it once. -/
theorem cstr_idem (s : String) : cstr (cstr s) = cstr s := by
  simp [cstr, List.takeWhile_idem]

/-- A text without NUL byte is its own C string. -/
theorem cstr_of_noNul (s : String) (h : noNul s = true) : cstr s = s := by
  have hl : s.toList.takeWhile (fun c => c != Char.ofNat 0) = s.toList := by
    rw [List.takeWhile_eq_self_iff]
    simpa [noNul] using h
  simp only [cstr, hl]
  rfl

/-- The comparison with the filter text handed over by `lua_tostring`. -/
theorem strcmp_zero_cstr (s p : String) : strcmp_zero s (cstr p) = sameText (some s) p := by
  simp [strcmp_zero, sameText, cstr_idem]

/-- Under a text filter the selection is `matchesText` on every record that
is not a complete record dated -1 met by a text that converts to no number. -/
theorem satisfies_string (cv : LuaConv) (p : String) (a : news_t)
    (h : cv.str2number p = none → (complete a && a.date == -1) = false) :
    satisfies (newsL_get_filter cv (.string p)) a = matchesText cv p a := by
  rcases a with ⟨id, title, desc, faction, date⟩
  cases hp : cv.str2number p with
  | some n =>
    cases title <;> cases desc <;> cases faction <;>
      simp [satisfies, matchesText, complete, newsL_get_filter, lua_isnumber, lua_tonumber,
        newsL_get_test, hp, eq_comm]
  | none =>
    have h1 := h hp
    cases title <;> cases desc <;> cases faction <;>
      simp [satisfies, matchesText, complete, newsL_get_filter, lua_isnumber, lua_isstring,
        lua_tostring, newsL_get_test, hp, strcmp_zero_cstr, sameText]
    rename_i t d f
    have hd : date ≠ -1 := by
      simpa [complete] using h1
    intro hneg
    exact absurd hneg.symm hd

/-- Under a filter of no recognized kind the date local keeps its initial
value -1, against which the date of every complete record is compared. -/
theorem satisfies_unrecognized (cv : LuaConv) (arg : LuaValue) (a : news_t)
    (h : unrecognized cv arg = true) :
    satisfies (newsL_get_filter cv arg) a = matchesDate (-1) a := by
  simp only [unrecognized, Bool.and_eq_true, Bool.not_eq_true', Bool.not_eq_eq_eq_not,
    Bool.not_true] at h
  obtain ⟨⟨h1, h2⟩, h3⟩ := h
  rcases a with ⟨id, title, desc, faction, date⟩
  cases title <;> cases desc <;> cases faction <;>
    simp [satisfies, matchesDate, complete, newsL_get_filter, h1, h2, h3, newsL_get_test, eq_comm]

/-- The selection under a filter whose test agrees with `P`. -/
theorem selected_congr (f : GetFilter) (P : news_t → Bool) (l : List news_t)
    (h : ∀ a, satisfies f a = P a) : selected f l = (l.filter P).map handle := by
  have : satisfies f = P := funext h
  simp [selected, this]

/-- On a list with at least one record the numeric filter `d` returns exactly
the complete articles whose date is `d`, in list order. -/
theorem newsL_get_number (cv : LuaConv) (news_list : List news_t) (d : Int)
    (h : news_list ≠ []) :
    newsL_get cv news_list (.number d) =
      .ok (List.enumFrom 1 ((news_list.filter (matchesDate d)).map handle)) := by
  rw [newsL_get_eq cv news_list _ h, selected_congr _ _ _ (satisfies_number cv d)]

/-! ## Reading the table as a sequence -/

/-- Reading from key `k` a table that holds `l` at the keys `k`, `k + 1`, ...
after entries with smaller keys gives `l`. -/
theorem sequenceFrom_enumFrom (l : List Lua_article) :
    ∀ (k : Nat) (pre : LuaTable) (fuel : Nat), (∀ e ∈ pre, e.1 < k) → l.length ≤ fuel →
      sequenceFrom (pre ++ List.enumFrom k l) k fuel = l := by
  induction l with
  | nil =>
    intro k pre fuel hpre _
    cases fuel with
    | zero => rfl
    | succ fuel =>
      have hnone : (pre ++ List.enumFrom k ([] : List Lua_article)).find? (fun e => e.1 == k) = none := by
        simp only [List.enumFrom, List.append_nil, List.find?_eq_none]
        intro e he
        have := hpre e he
        simp only [beq_iff_eq]
        omega
      simp only [sequenceFrom, hnone]
  | cons x xs ih =>
    intro k pre fuel hpre hlen
    cases fuel with
    | zero => simp at hlen
    | succ fuel =>
      have hpre_none : pre.find? (fun e => e.1 == k) = none := by
        simp only [List.find?_eq_none]
        intro e he
        have := hpre e he
        simp only [beq_iff_eq]
        omega
      have hfind : (pre ++ List.enumFrom k (x :: xs)).find? (fun e => e.1 == k) = some (k, x) := by
        simp [List.find?_append, hpre_none, List.enumFrom, List.find?_cons]
      have hstep : pre ++ List.enumFrom k (x :: xs) = (pre ++ [(k, x)]) ++ List.enumFrom (k + 1) xs := by
        simp [List.enumFrom]
      simp only [sequenceFrom, hfind]
      rw [hstep, ih (k + 1) (pre ++ [(k, x)]) fuel ?_ ?_]
      · intro e he
        rcases List.mem_append.mp he with he | he
        · have := hpre e he
          omega
        · simp only [List.mem_singleton] at he
          subst he
          simp
      · simpa using hlen

/-- The sequence of the table that holds `l` at the keys 1, 2, ... is `l`. -/
theorem sequence_enumFrom (l : List Lua_article) : sequence (List.enumFrom 1 l) = l := by
  have := sequenceFrom_enumFrom l 1 [] (List.enumFrom 1 l).length (by simp) (by simp)
  simpa [sequence] using this

/-- With pairwise distinct ids, the handle of a record of the list is among
the handles of the records chosen by `P` exactly when `P` chooses it. -/
theorem mem_handles_iff (P : news_t → Bool) (l : List news_t) (a : news_t)
    (hid : (l.map news_t.id).Nodup) (ha : a ∈ l) :
    handle a ∈ (l.filter P).map handle ↔ P a = true := by
  constructor
  · intro h
    obtain ⟨b, hb, hba⟩ := List.mem_map.mp h
    obtain ⟨hbl, hPb⟩ := List.mem_filter.mp hb
    have hid_eq : b.id = a.id := by simpa [handle] using hba
    have : b = a := List.inj_on_of_nodup_map hid hbl ha hid_eq
    rw [← this]
    exact hPb
  · intro h
    exact List.mem_map.mpr ⟨a, List.mem_filter.mpr ⟨ha, h⟩, rfl⟩

/-- The comparison of a field with a text, spelled out. -/
theorem sameText_iff (field : Option String) (p : String) :
    sameText field p = true ↔ ∃ s, field = some s ∧ cstr s = cstr p := by
  cases field <;> simp [sameText]

/-- The selection of a text filter, spelled out. -/
theorem matchesText_iff (cv : LuaConv) (p : String) (a : news_t) :
    matchesText cv p a = true ↔
      complete a = true ∧
        ((∃ n, cv.str2number p = some n ∧ a.date = n) ∨
          (cv.str2number p = none ∧
            ((∃ s, a.title = some s ∧ cstr s = cstr p) ∨
              (∃ s, a.desc = some s ∧ cstr s = cstr p) ∨
              (∃ s, a.faction = some s ∧ cstr s = cstr p)))) := by
  unfold matchesText
  cases hp : cv.str2number p <;> simp [or_assoc, sameText_iff]

/-- A list without a complete record dated -1, record by record. -/
theorem noneDatedMinusOne_mem (l : List news_t) (h : noneDatedMinusOne l = true)
    (a : news_t) (ha : a ∈ l) : (complete a && a.date == -1) = false := by
  have h1 := (List.all_eq_true.mp h) a ha
  cases hc : (complete a && a.date == -1)
  · rfl
  · rw [hc] at h1
    exact absurd h1 (by decide)

/-- The id invariant as a statement on the records. -/
theorem idsBelowCounter_iff (st : news_state) :
    idsBelowCounter st = true ↔ ∀ a ∈ st.news_list, a.id < st.next_id := by
  simp [idsBelowCounter]

/-- The operation `new_article` keeps the ids below the id counter. -/
theorem new_article_idsBelowCounter (st : news_state) (title content faction : String)
    (date : Int) (h : idsBelowCounter st = true) :
    idsBelowCounter (new_article st title content faction date).2 = true := by
  unfold new_article
  split
  · exact h
  · rw [idsBelowCounter_iff] at h ⊢
    intro a ha
    simp only [List.mem_append, List.mem_singleton] at ha ⊢
    rcases ha with ha | ha
    · have := h a ha
      omega
    · subst ha
      simp

/-- The binding `newsL_addArticle` keeps the ids below the id counter. -/
theorem newsL_addArticle_idsBelowCounter (cv : LuaConv) (st : news_state)
    (a1 a2 a3 a4 : LuaValue) (h : idsBelowCounter st = true) :
    idsBelowCounter (newsL_addArticle cv st a1 a2 a3 a4).2 = true := by
  unfold newsL_addArticle
  split
  · cases lua_tostring cv a1 <;> cases lua_tostring cv a2 <;> cases lua_tostring cv a3 <;>
      try exact h
    rename_i f t c
    have hnew := new_article_idsBelowCounter st t c f (lua_tonumber cv a4) h
    simp only
    rcases hres : new_article st t c f (lua_tonumber cv a4) with ⟨r, st1⟩
    rw [hres] at hnew
    cases r <;> exact hnew
  · exact h

/-- Below 2^53 in magnitude a date is pushed as itself. -/
theorem lua_pushinteger_exact (date : Int) (hlo : -(2 ^ 53) < date) (hhi : date < 2 ^ 53) :
    lua_pushinteger date = .number date := by
  have hcast : lua_Integer_cast date = date := by
    unfold lua_Integer_cast
    norm_num at hlo hhi ⊢
    omega
  have habs : date.natAbs < 2 ^ 53 := by
    norm_num at hlo hhi ⊢
    omega
  simp only [lua_pushinteger, hcast, lua_Number_of_integer]
  rw [if_pos habs]

/-- On a list with at least one record and no complete record dated -1, a
filter of no recognized kind returns the empty table. -/
theorem newsL_get_unrecognized_empty (cv : LuaConv) (news_list : List news_t)
    (arg : LuaValue) (h : news_list ≠ []) (hu : unrecognized cv arg = true)
    (hnone : noneDatedMinusOne news_list = true) :
    newsL_get cv news_list arg = .ok [] := by
  rw [newsL_get_eq cv news_list _ h,
    selected_congr _ _ _ (fun a => satisfies_unrecognized cv arg a hu)]
  have hnil : news_list.filter (matchesDate (-1)) = [] := by
    rw [List.filter_eq_nil_iff]
    intro a ha hm
    have := noneDatedMinusOne_mem news_list hnone a ha
    simp only [matchesDate] at hm
    rw [hm] at this
    exact absurd this (by decide)
  rw [hnil]
  rfl

/-! ## The claims -/

/-- C1 (counterexample): with the text filter "10" the complete article titled
"10" is not returned, and with the text filter made of "Hello", a NUL byte and
"x", which is none of the texts of the article, the article titled "Hello" is
returned. -/
theorem newsL_get_text_counterexample :
    (newsL_get decimalConv [titledTen] (.string "10") = .ok [] ∧
      complete titledTen = true ∧ titledTen.title = some "10") ∧
    (newsL_get decimalConv [helloUndated] (.string helloNulTail) =
        .ok [(1, handle helloUndated)] ∧
      helloUndated.title ≠ some helloNulTail ∧ helloUndated.desc ≠ some helloNulTail ∧
      helloUndated.faction ≠ some helloNulTail) := by
  decide

/-- C1 (amended): on a store with at least one record, `newsL_get` with the
text filter `p` returns, in list order, exactly the complete articles whose
date is the number `p` converts to, when `p` converts to a number, and
otherwise exactly the complete articles one of whose title, desc and faction
equals `p` read up to its first NUL byte; the second case is stated for
stores without a complete article dated -1. -/
theorem newsL_get_text (cv : LuaConv) (news_list : List news_t) (p : String)
    (h : news_list ≠ [])
    (hdate : cv.str2number p = none → noneDatedMinusOne news_list = true) :
    newsL_get cv news_list (.string p) =
        .ok (List.enumFrom 1 ((news_list.filter (matchesText cv p)).map handle)) ∧
      ∀ a, matchesText cv p a = true ↔
        complete a = true ∧
          ((∃ n, cv.str2number p = some n ∧ a.date = n) ∨
            (cv.str2number p = none ∧
              ((∃ s, a.title = some s ∧ cstr s = cstr p) ∨
                (∃ s, a.desc = some s ∧ cstr s = cstr p) ∨
                (∃ s, a.faction = some s ∧ cstr s = cstr p)))) := by
  refine ⟨?_, matchesText_iff cv p⟩
  rw [newsL_get_eq cv news_list _ h]
  unfold selected
  rw [List.filter_congr (fun a ha =>
    satisfies_string cv p a (fun hp => noneDatedMinusOne_mem news_list (hdate hp) a ha))]

/-- C1 (witness): the text filter "Pirate" on the sample store returns the
article of the faction "Pirate" alone. -/
theorem newsL_get_text_witness :
    sampleState.news_list ≠ [] ∧
      (decimalConv.str2number "Pirate" = none →
        noneDatedMinusOne sampleState.news_list = true) ∧
      newsL_get decimalConv sampleState.news_list (.string "Pirate") =
        .ok [(1, handle raidArticle)] :=
  ⟨by decide, fun _ => by decide,
    ((newsL_get_text decimalConv sampleState.news_list "Pirate" (by decide)
      (fun _ => by decide)).1).trans (by decide)⟩

/-- C2: on a store with at least one record, `newsL_get` with a boolean filter
returns the table whose keys 1, 2, ... hold the handles of exactly the
complete articles, each once, in list order. -/
theorem newsL_get_all (cv : LuaConv) (news_list : List news_t) (h : news_list ≠ []) :
    newsL_get cv news_list (.boolean true) =
        .ok (List.enumFrom 1 ((news_list.filter complete).map handle)) ∧
      (newsL_get cv news_list (.boolean true)).map sequence =
        .ok ((news_list.filter complete).map handle) := by
  have heq := newsL_get_eq cv news_list (.boolean true) h
  rw [selected_congr _ _ _ (satisfies_boolean cv true)] at heq
  refine ⟨heq, ?_⟩
  rw [heq]
  show Except.ok (sequence _) = _
  rw [sequence_enumFrom]

/-- C2 (witness): the filter `true` on the sample store. -/
theorem newsL_get_all_witness :
    sampleState.news_list ≠ [] ∧
      (newsL_get decimalConv sampleState.news_list (.boolean true) =
          .ok (List.enumFrom 1 ((sampleState.news_list.filter complete).map handle)) ∧
        (newsL_get decimalConv sampleState.news_list (.boolean true)).map sequence =
          .ok ((sampleState.news_list.filter complete).map handle)) :=
  ⟨by decide, newsL_get_all decimalConv sampleState.news_list (by decide)⟩

/-- C3: on a store with at least one record, `newsL_get` with the numeric
filter `d` returns, in list order, the handles of exactly the complete
articles whose date equals `d`, and no others. -/
theorem newsL_get_by_date (cv : LuaConv) (news_list : List news_t) (d : Int)
    (h : news_list ≠ []) :
    newsL_get cv news_list (.number d) =
        .ok (List.enumFrom 1 ((news_list.filter (matchesDate d)).map handle)) ∧
      (newsL_get cv news_list (.number d)).map sequence =
        .ok ((news_list.filter (matchesDate d)).map handle) ∧
      ∀ a, matchesDate d a = true ↔ complete a = true ∧ a.date = d := by
  have heq := newsL_get_number cv news_list d h
  refine ⟨heq, ?_, ?_⟩
  · rw [heq]
    show Except.ok (sequence _) = _
    rw [sequence_enumFrom]
  · intro a
    simp [matchesDate]

/-- C3 (witness): the numeric filter 5 on the sample store returns the two
complete articles dated 5 and skips the record without texts dated 5. -/
theorem newsL_get_by_date_witness :
    sampleState.news_list ≠ [] ∧
      newsL_get decimalConv sampleState.news_list (.number 5) =
        .ok [(1, handle titledTen), (2, handle raidArticle)] :=
  ⟨by decide,
    ((newsL_get_by_date decimalConv sampleState.news_list 5 (by decide)).1).trans (by decide)⟩

/-- C7: on an article handle, when `news_get` finds no record for the id each
of the four accessors ends with the not-valid warning and pushes nothing;
when it finds the record `r`, `newsL_title`, `newsL_desc` and `newsL_faction`
push the text of the field (a C string, without NUL byte), or nil when the
field is not set, and `newsL_date` pushes the date, for a date below 2^53 in
magnitude. -/
theorem newsL_accessors (st : news_state) (x : Lua_article) :
    (news_get st x.id = none →
        newsL_title st (.article x) = .error .notValid ∧
        newsL_desc st (.article x) = .error .notValid ∧
        newsL_faction st (.article x) = .error .notValid ∧
        newsL_date st (.article x) = .error .notValid) ∧
      (∀ r, news_get st x.id = some r →
        (∀ s, r.title = some s → noNul s = true →
          newsL_title st (.article x) = .ok (.string s)) ∧
        (r.title = none → newsL_title st (.article x) = .ok .nil) ∧
        (∀ s, r.desc = some s → noNul s = true →
          newsL_desc st (.article x) = .ok (.string s)) ∧
        (r.desc = none → newsL_desc st (.article x) = .ok .nil) ∧
        (∀ s, r.faction = some s → noNul s = true →
          newsL_faction st (.article x) = .ok (.string s)) ∧
        (r.faction = none → newsL_faction st (.article x) = .ok .nil) ∧
        (-(2 ^ 53) < r.date → r.date < 2 ^ 53 →
          newsL_date st (.article x) = .ok (.number r.date))) := by
  constructor
  · intro h
    simp [newsL_title, newsL_desc, newsL_faction, newsL_date, luaL_validarticle, h]
  · intro r h
    refine ⟨?_, ?_, ?_, ?_, ?_, ?_, ?_⟩
    · intro s hs hn
      simp [newsL_title, luaL_validarticle, h, hs, lua_pushstring, cstr_of_noNul s hn]
    · intro hs
      simp [newsL_title, luaL_validarticle, h, hs, lua_pushstring]
    · intro s hs hn
      simp [newsL_desc, luaL_validarticle, h, hs, lua_pushstring, cstr_of_noNul s hn]
    · intro hs
      simp [newsL_desc, luaL_validarticle, h, hs, lua_pushstring]
    · intro s hs hn
      simp [newsL_faction, luaL_validarticle, h, hs, lua_pushstring, cstr_of_noNul s hn]
    · intro hs
      simp [newsL_faction, luaL_validarticle, h, hs, lua_pushstring]
    · intro hlo hhi
      simp [newsL_date, luaL_validarticle, h, lua_pushinteger_exact r.date hlo hhi]

/-- C7 (witness): on the sample store the handle with id 9 resolves to no
record, the handle with id 4 to the article "Raid", and the handle with id 3
to the record without texts. -/
theorem newsL_accessors_witness :
    (newsL_title sampleState (.article { id := 9 }) = .error .notValid ∧
        newsL_desc sampleState (.article { id := 9 }) = .error .notValid ∧
        newsL_faction sampleState (.article { id := 9 }) = .error .notValid ∧
        newsL_date sampleState (.article { id := 9 }) = .error .notValid) ∧
      (newsL_title sampleState (.article { id := 4 }) = .ok (.string "Raid") ∧
        newsL_desc sampleState (.article { id := 4 }) = .ok (.string "A convoy was lost") ∧
        newsL_faction sampleState (.article { id := 4 }) = .ok (.string "Pirate") ∧
        newsL_date sampleState (.article { id := 4 }) = .ok (.number 5)) ∧
      newsL_title sampleState (.article { id := 3 }) = .ok .nil :=
  ⟨(newsL_accessors sampleState { id := 9 }).1 (by decide),
    ⟨((newsL_accessors sampleState { id := 4 }).2 raidArticle (by decide)).1
        "Raid" (by decide) (by decide),
      ((newsL_accessors sampleState { id := 4 }).2 raidArticle (by decide)).2.2.1
        "A convoy was lost" (by decide) (by decide),
      ((newsL_accessors sampleState { id := 4 }).2 raidArticle (by decide)).2.2.2.2.1
        "Pirate" (by decide) (by decide),
      ((newsL_accessors sampleState { id := 4 }).2 raidArticle (by decide)).2.2.2.2.2.2
        (by decide) (by decide)⟩,
    ((newsL_accessors sampleState { id := 3 }).2 blankRecord (by decide)).2.1 (by decide)⟩

/-- C8 (counterexample): the complete article dated 0 is returned for the
numeric filter 0. -/
theorem newsL_get_date_zero_counterexample :
    helloUndated.date = 0 ∧
      newsL_get decimalConv [helloUndated] (.number 0) = .ok [(1, handle helloUndated)] := by
  decide

/-- C8 (amended): in a store whose ids are pairwise distinct, an article dated
0 is returned for the numeric filter `d` exactly when it is complete and `d`
is 0; for every other `d` it is not returned. -/
theorem newsL_get_date_zero (cv : LuaConv) (news_list : List news_t) (a : news_t) (d : Int)
    (hid : (news_list.map news_t.id).Nodup) (ha : a ∈ news_list) (h0 : a.date = 0) :
    ∃ t, newsL_get cv news_list (.number d) = .ok t ∧
      (handle a ∈ sequence t ↔ complete a = true ∧ d = 0) := by
  have hne : news_list ≠ [] := List.ne_nil_of_mem ha
  refine ⟨_, newsL_get_number cv news_list d hne, ?_⟩
  rw [sequence_enumFrom, mem_handles_iff _ _ _ hid ha]
  simp only [matchesDate, Bool.and_eq_true, beq_iff_eq, h0]
  constructor <;> rintro ⟨h1, h2⟩ <;> exact ⟨h1, h2.symm⟩

/-- C8 (witness): the article dated 0 stored next to one dated -1, under the
numeric filter 7. -/
theorem newsL_get_date_zero_witness :
    ([helloUndated, helloMinusOne].map news_t.id).Nodup ∧
      helloUndated ∈ [helloUndated, helloMinusOne] ∧ helloUndated.date = 0 ∧
      ∃ t, newsL_get decimalConv [helloUndated, helloMinusOne] (.number 7) = .ok t ∧
        (handle helloUndated ∈ sequence t ↔ complete helloUndated = true ∧ (7 : Int) = 0) :=
  ⟨by decide, by decide, by decide,
    newsL_get_date_zero decimalConv [helloUndated, helloMinusOne] helloUndated 7
      (by decide) (by decide) (by decide)⟩

/-- C9: whatever the filter value, a record with one of title, desc and
faction unset adds nothing to the result of `newsL_get`, which is made of the
matches among the records before it followed by the matches among the records
after it; every handle returned is that of a complete record of the store. -/
theorem newsL_get_skips_incomplete (cv : LuaConv) (before after : List news_t)
    (inc : news_t) (arg : LuaValue) (hinc : complete inc = false) :
    newsL_get cv (before ++ inc :: after) arg =
        .ok (List.enumFrom 1
          (selected (newsL_get_filter cv arg) before ++
            selected (newsL_get_filter cv arg) after)) ∧
      ∀ x ∈ selected (newsL_get_filter cv arg) before ++
            selected (newsL_get_filter cv arg) after,
        ∃ a ∈ before ++ inc :: after, complete a = true ∧ x = handle a := by
  have hsat : satisfies (newsL_get_filter cv arg) inc = false := by
    cases hs : satisfies (newsL_get_filter cv arg) inc
    · rfl
    · rw [satisfies_complete _ _ hs] at hinc
      exact absurd hinc (by decide)
  constructor
  · rw [newsL_get_eq cv _ arg (by simp), selected_append, selected_cons, hsat]
    simp
  · intro x hx
    rcases List.mem_append.mp hx with hx | hx
    · obtain ⟨a, ha, rfl⟩ := List.mem_map.mp hx
      obtain ⟨hal, has⟩ := List.mem_filter.mp ha
      exact ⟨a, by simp [hal], satisfies_complete _ _ has, rfl⟩
    · obtain ⟨a, ha, rfl⟩ := List.mem_map.mp hx
      obtain ⟨hal, has⟩ := List.mem_filter.mp ha
      exact ⟨a, by simp [hal], satisfies_complete _ _ has, rfl⟩

/-- C9 (witness): the sample store, whose middle record has no texts, under
the numeric filter 5. -/
theorem newsL_get_skips_incomplete_witness :
    complete blankRecord = false ∧
      newsL_get decimalConv ([titledTen] ++ blankRecord :: [raidArticle]) (.number 5) =
        .ok [(1, handle titledTen), (2, handle raidArticle)] :=
  ⟨by decide,
    ((newsL_get_skips_incomplete decimalConv [titledTen] [raidArticle] blankRecord (.number 5)
      (by decide)).1).trans (by decide)⟩

/-- C10 (failing input): `news.add("Empire", "Hello", "Hello world!", -1)` on
the store without articles creates the article with id 4, and `newsL_get`
with the filter `nil`, which is of no recognized kind, then returns that
article instead of the empty sequence. -/
theorem newsL_get_unrecognized_dated_minus_one :
    newsL_addArticle decimalConv placeholderState (.string "Empire") (.string "Hello")
        (.string "Hello world!") (.number (-1)) =
      (.ok { id := 4 }, { news_list := [blankRecord, addedMinusOne], next_id := 5 }) ∧
    unrecognized decimalConv .nil = true ∧
    newsL_get decimalConv [blankRecord, addedMinusOne] .nil = .ok [(1, { id := 4 })] := by
  decide

end NluaNews
